import Mathlib

/-!
# TinyPlug: `hirzel::Plugin` (src/plugin.h)

A shallow embedding of the `Plugin` class and proofs about its handle
lifecycle, its symbol table and its typed invocation.

Modelling conventions

* A pointer (`void*`, `void(*)()`) is a natural number; `0` is `nullptr`.
* `std::unordered_map<std::string, void(*)()>` is an association list read
  through `Table.find` (first match); no theorem depends on the order of the
  entries.
* The operating system is an oracle `OS` (`dlopen`, `dlsym`; on Windows
  `LoadLibrary`, `GetProcAddress`, which the source uses in the same places);
  what it returns depends on the arguments of the call only.
* Every call that leaves the class (loader, symbol lookup, release, call
  through a function pointer) is appended to the ghost field `Plugin.trace`,
  so that "no call is made" and "exactly one call is made" can be stated.
* A call through a resolved address under the asserted signature
  `T(*)(Args...)` is a function `call : Nat → A → T` supplied by the caller of
  `execute`, and `T()` is the parameter `T0`. What the called code does to the
  rest of the process is outside the model.
-/

namespace hirzel

/-- Calls that leave the class, in the order the code issues them. -/
inductive OsCall where
  | dlopen (filename : String)
  | dlsym (lib : Nat) (funcname : String)
  | dlclose (lib : Nat)
  | call (func : Nat)
  deriving DecidableEq, Repr

/-- The operating system as seen by the class: the loader and the symbol lookup. -/
structure OS where
  dlopen : String → Nat
  dlsym : Nat → String → Nat

/-- Contents of `std::unordered_map<std::string, void(*)()>`. -/
abbrev Table := List (String × Nat)

namespace Table

/-- Lookup of a key, `unordered_map::find`: the mapped pointer when the key is present. -/
def find : Table → String → Option Nat
  | [], _ => none
  | (k, v) :: t, key => if k = key then some v else find t key

/-- Number of elements with the key, `unordered_map::count`. -/
def count : Table → String → Nat
  | [], _ => 0
  | (k, _) :: t, key => if k = key then 1 else count t key

/-- Element access `operator[]`, insertion half: when the key is absent an element with a
value-initialised (null) pointer is inserted; otherwise the table is left alone. -/
def subscript (t : Table) (key : String) : Table :=
  if count t key = 0 then t ++ [(key, 0)] else t

/-- Write through the reference that `operator[]` returned. -/
def store : Table → String → Nat → Table
  | [], _, _ => []
  | (k, x) :: t, key, v => if k = key then (k, v) :: t else (k, x) :: store t key v

/-- Read through the reference that `operator[]` returned. -/
def load (t : Table) (key : String) : Nat :=
  (find t key).getD 0

end Table

/-- The object: the private members `lib` and `functions`, and the ghost log of outside calls. -/
structure Plugin where
  lib : Nat := 0
  functions : Table := []
  trace : List OsCall := []
  deriving DecidableEq, Repr

namespace Plugin

/-- Member `is_loaded`: `return (lib != nullptr);`. -/
def is_loaded (p : Plugin) : Bool :=
  decide (p.lib ≠ 0)

/-- Member `is_bound`: `return functions.count(funcname);` converted to `bool`. -/
def is_bound (p : Plugin) (funcname : String) : Bool :=
  decide (Table.count p.functions funcname ≠ 0)

/-- Member `load_library`. -/
def load_library (os : OS) (p : Plugin) (filename : String) : Plugin :=
  if p.lib ≠ 0 then
    p
  else
    { p with lib := os.dlopen filename, trace := p.trace ++ [OsCall.dlopen filename] }

/-- Member `bind_function`. -/
def bind_function (os : OS) (p : Plugin) (funcname : String) : Plugin :=
  if p.lib = 0 then
    p
  else
    let func := os.dlsym p.lib funcname
    { p with
      functions := Table.store (Table.subscript p.functions funcname) funcname func,
      trace := p.trace ++ [OsCall.dlsym p.lib funcname] }

/-- Member template `execute<T, Args...>`: the result and the object afterwards. -/
def execute {T A : Type} (call : Nat → A → T) (T0 : T) (p : Plugin) (funcname : String)
    (a : A) : T × Plugin :=
  let fs := Table.subscript p.functions funcname
  let func := Table.load fs funcname
  if func = 0 then
    (T0, { p with functions := fs })
  else
    (call func a, { p with functions := fs, trace := p.trace ++ [OsCall.call func] })

/-- Destructor `~Plugin`: the object as it is when its storage is given up. -/
def destructor (p : Plugin) : Plugin :=
  if p.lib ≠ 0 then
    { p with trace := p.trace ++ [OsCall.dlclose p.lib] }
  else
    p

/-- Constructor `Plugin() = default`. -/
def ctor : Plugin := {}

/-- Constructor `Plugin(const std::string& filename)`. -/
def ctor_load (os : OS) (filename : String) : Plugin :=
  load_library os ctor filename

/-- Constructor `Plugin(const std::string& filename, const std::vector<std::string>& funcnames)`. -/
def ctor_bind (os : OS) (filename : String) (funcnames : List String) : Plugin :=
  let p := load_library os ctor filename
  if p.lib ≠ 0 then
    funcnames.foldl (bind_function os) p
  else
    p

end Plugin

/-- Number of release calls (`dlclose` / `FreeLibrary`) in a log. -/
def releases : List OsCall → Nat
  | [] => 0
  | OsCall.dlclose _ :: t => releases t + 1
  | _ :: t => releases t

/-- Number of calls through a function pointer in a log. -/
def libcalls : List OsCall → Nat
  | [] => 0
  | OsCall.call _ :: t => libcalls t + 1
  | _ :: t => libcalls t

/-- A member call made on a live object between construction and destruction. -/
inductive Op (A : Type) where
  | load (filename : String)
  | bind (funcname : String)
  | exec (funcname : String) (a : A)

/-- Effect of one member call on the object. -/
def Op.apply {T A : Type} (os : OS) (call : Nat → A → T) (T0 : T) (p : Plugin) : Op A → Plugin
  | Op.load filename => Plugin.load_library os p filename
  | Op.bind funcname => Plugin.bind_function os p funcname
  | Op.exec funcname a => (Plugin.execute call T0 p funcname a).2

/-- Effect of a sequence of member calls, first to last. -/
def run {T A : Type} (os : OS) (call : Nat → A → T) (T0 : T) (p : Plugin) (ops : List (Op A)) :
    Plugin :=
  ops.foldl (Op.apply os call T0) p

/-! ## Concrete instances used for evaluation -/

/-- A system with one library `"libm.so"` (handle 5) exporting `answer` at 17 and `zero` at 23. -/
def os1 : OS where
  dlopen := fun f => if f = "libm.so" then 5 else 0
  dlsym := fun h s => if h = 5 then (if s = "answer" then 17 else if s = "zero" then 23 else 0) else 0

/-- The code behind the addresses of `os1` under the signature `int(*)()`. -/
def call1 : Nat → Unit → Int :=
  fun f _ => if f = 17 then 42 else 0

/-- A loaded object with `answer` and `zero` bound. -/
def p1 : Plugin :=
  Plugin.ctor_bind os1 "libm.so" ["answer", "zero"]

/-- A loaded object on which the bind of `nope` did not resolve and the bind of `zero` did. -/
def p2 : Plugin :=
  Plugin.ctor_bind os1 "libm.so" ["nope", "zero"]

/-! ## The symbol table -/

namespace Table

theorem count_eq_zero_iff (t : Table) (key : String) :
    count t key = 0 ↔ find t key = none := by
  induction t with
  | nil => simp [count, find]
  | cons e t ih =>
    obtain ⟨k, v⟩ := e
    by_cases h : k = key
    · simp [count, find, h]
    · simp [count, find, h, ih]

theorem count_ne_zero_iff (t : Table) (key : String) :
    count t key ≠ 0 ↔ (find t key).isSome = true := by
  rw [Ne, count_eq_zero_iff, Option.isSome_iff_ne_none]

theorem find_append_single (t : Table) (key other : String) (v : Nat) :
    find (t ++ [(key, v)]) other =
      match find t other with
      | some x => some x
      | none => if key = other then some v else none := by
  induction t with
  | nil => simp [find]
  | cons e t ih =>
    obtain ⟨k, x⟩ := e
    by_cases h : k = other
    · simp [find, h]
    · simp [find, h, ih]

theorem find_store (t : Table) (key other : String) (v : Nat) :
    find (store t key v) other =
      if key = other then (find t other).map (fun _ => v) else find t other := by
  induction t with
  | nil => simp [store, find]
  | cons e t ih =>
    obtain ⟨k, x⟩ := e
    by_cases hk : k = key
    · subst hk
      by_cases ho : k = other
      · simp [store, find, ho]
      · simp [store, find, ho]
    · by_cases ho : k = other
      · subst ho
        simp [store, find, hk, Ne.symm hk]
      · simp [store, find, hk, ho, ih]

theorem subscript_of_find_some (t : Table) (key : String) (v : Nat)
    (h : find t key = some v) : subscript t key = t := by
  have hc : count t key ≠ 0 := by
    rw [count_ne_zero_iff, h]; rfl
  simp [subscript, hc]

theorem subscript_of_find_none (t : Table) (key : String)
    (h : find t key = none) : subscript t key = t ++ [(key, 0)] := by
  have hc : count t key = 0 := (count_eq_zero_iff t key).2 h
  simp [subscript, hc]

theorem find_subscript_self (t : Table) (key : String) :
    find (subscript t key) key = some ((find t key).getD 0) := by
  cases h : find t key with
  | none => rw [subscript_of_find_none t key h, find_append_single, h]; simp
  | some v => rw [subscript_of_find_some t key v h, h]; rfl

theorem find_subscript_other (t : Table) (key other : String) (h : other ≠ key) :
    find (subscript t key) other = find t other := by
  cases hk : find t key with
  | none =>
    rw [subscript_of_find_none t key hk, find_append_single]
    cases find t other with
    | none => simp [Ne.symm h]
    | some x => rfl
  | some v => rw [subscript_of_find_some t key v hk]

/-- Assignment `functions[key] = v` as a whole: the key maps to `v` afterwards. -/
theorem find_assign_self (t : Table) (key : String) (v : Nat) :
    find (store (subscript t key) key v) key = some v := by
  rw [find_store, find_subscript_self]; simp

/-- Assignment `functions[key] = v` as a whole: every other key is left alone. -/
theorem find_assign_other (t : Table) (key other : String) (v : Nat) (h : other ≠ key) :
    find (store (subscript t key) key v) other = find t other := by
  rw [find_store, find_subscript_other t key other h]; simp [Ne.symm h]

end Table

namespace Plugin

theorem is_bound_iff_find (p : Plugin) (funcname : String) :
    p.is_bound funcname = true ↔ (Table.find p.functions funcname).isSome = true := by
  simp only [is_bound, decide_eq_true_eq]
  exact Table.count_ne_zero_iff _ _

theorem is_bound_eq_of_find_eq (p q : Plugin) (funcname : String)
    (h : Table.find q.functions funcname = Table.find p.functions funcname) :
    q.is_bound funcname = p.is_bound funcname := by
  rw [Bool.eq_iff_iff, is_bound_iff_find, is_bound_iff_find, h]

theorem bind_function_loaded (os : OS) (p : Plugin) (funcname : String) (h : p.lib ≠ 0) :
    bind_function os p funcname =
      { p with
        functions := Table.store (Table.subscript p.functions funcname) funcname
          (os.dlsym p.lib funcname),
        trace := p.trace ++ [OsCall.dlsym p.lib funcname] } := by
  simp [bind_function, h]

theorem bind_function_lib (os : OS) (p : Plugin) (funcname : String) :
    (bind_function os p funcname).lib = p.lib := by
  by_cases h : p.lib = 0
  · simp [bind_function, h]
  · simp [bind_function, h]

theorem execute_lib {T A : Type} (call : Nat → A → T) (T0 : T) (p : Plugin) (funcname : String)
    (a : A) : (execute call T0 p funcname a).2.lib = p.lib := by
  unfold execute
  dsimp only
  split <;> rfl

end Plugin

/-! ## Handle manager -/

/-- C1: on an instance with a null handle, `load_library(path)` stores what the loader
returns for the path: when that handle `h` is non-null `is_loaded()` is true and the stored
handle is `h`, when it is null `is_loaded()` is false; the symbol table is the same in both
cases (and the loader was asked exactly once, for that path). -/
theorem load_library_unloaded (os : OS) (p : Plugin) (path : String) (h0 : p.lib = 0) :
    (∀ h, os.dlopen path = h → h ≠ 0 →
        (Plugin.load_library os p path).is_loaded = true ∧
        (Plugin.load_library os p path).lib = h) ∧
    (os.dlopen path = 0 → (Plugin.load_library os p path).is_loaded = false) ∧
    (Plugin.load_library os p path).functions = p.functions ∧
    (Plugin.load_library os p path).trace = p.trace ++ [OsCall.dlopen path] := by
  have hq : Plugin.load_library os p path =
      { p with lib := os.dlopen path, trace := p.trace ++ [OsCall.dlopen path] } := by
    simp [Plugin.load_library, h0]
  rw [hq]
  refine ⟨?_, ?_, rfl, rfl⟩
  · intro h hh hne
    subst hh
    exact ⟨by simp [Plugin.is_loaded, hne], rfl⟩
  · intro hz
    simp [Plugin.is_loaded, hz]

/-- Witness of C1 on a fresh object: `"libm.so"` opens to handle 5, `"nothere.so"` does not open. -/
theorem load_library_unloaded_witness :
    (Plugin.load_library os1 Plugin.ctor "libm.so").is_loaded = true ∧
    (Plugin.load_library os1 Plugin.ctor "libm.so").lib = 5 ∧
    (Plugin.load_library os1 Plugin.ctor "nothere.so").is_loaded = false ∧
    (Plugin.load_library os1 Plugin.ctor "nothere.so").functions = Plugin.ctor.functions :=
  ⟨((load_library_unloaded os1 Plugin.ctor "libm.so" rfl).1 5 (by decide) (by decide)).1,
   ((load_library_unloaded os1 Plugin.ctor "libm.so" rfl).1 5 (by decide) (by decide)).2,
   (load_library_unloaded os1 Plugin.ctor "nothere.so" rfl).2.1 (by decide),
   (load_library_unloaded os1 Plugin.ctor "nothere.so" rfl).2.2.1⟩

/-- C2: on an instance with a non-null handle, `load_library(path)` changes nothing: the
object after the call is the object before it, so the log of outside calls has no new entry
(the loader is not invoked), the handle is the same and the table is the same. -/
theorem load_library_loaded_noop (os : OS) (p : Plugin) (path : String) (h : p.lib ≠ 0) :
    Plugin.load_library os p path = p ∧
    (Plugin.load_library os p path).trace = p.trace ∧
    (Plugin.load_library os p path).lib = p.lib ∧
    (Plugin.load_library os p path).functions = p.functions := by
  have hq : Plugin.load_library os p path = p := by
    simp [Plugin.load_library, h]
  rw [hq]
  exact ⟨rfl, rfl, rfl, rfl⟩

/-- Witness of C2: a second load on the loaded object `p1`, with another path. -/
theorem load_library_loaded_noop_witness :
    Plugin.load_library os1 p1 "other.so" = p1 :=
  (load_library_loaded_noop os1 p1 "other.so" (by decide)).1

/-! ## Symbol table -/

/-- C3: on an instance with non-null handle `h`, for a name that the symbol lookup on `h`
resolves to a non-null address `a`, after `bind_function(name)` `is_bound(name)` is true and
the table maps the name to `a` (a non-null pointer); the handle is the same and every other key maps to what it
mapped to before (and is bound exactly when it was). -/
theorem bind_function_resolved (os : OS) (p : Plugin) (name : String) (a : Nat)
    (hl : p.lib ≠ 0) (hr : os.dlsym p.lib name = a) (ha : a ≠ 0) :
    (Plugin.bind_function os p name).is_bound name = true ∧
    Table.find (Plugin.bind_function os p name).functions name = some a ∧
    Table.load (Plugin.bind_function os p name).functions name ≠ 0 ∧
    (Plugin.bind_function os p name).lib = p.lib ∧
    (∀ other, other ≠ name →
      Table.find (Plugin.bind_function os p name).functions other =
        Table.find p.functions other ∧
      (Plugin.bind_function os p name).is_bound other = p.is_bound other) := by
  have hf : Table.find (Plugin.bind_function os p name).functions name = some a := by
    rw [Plugin.bind_function_loaded os p name hl, ← hr]
    exact Table.find_assign_self _ _ _
  have ho : ∀ other, other ≠ name →
      Table.find (Plugin.bind_function os p name).functions other =
        Table.find p.functions other := by
    intro other hne
    rw [Plugin.bind_function_loaded os p name hl]
    exact Table.find_assign_other _ _ _ _ hne
  refine ⟨?_, hf, ?_, Plugin.bind_function_lib os p name, ?_⟩
  · rw [Plugin.is_bound_iff_find, hf]; rfl
  · simpa [Table.load, hf] using ha
  · intro other hne
    exact ⟨ho other hne, Plugin.is_bound_eq_of_find_eq _ _ _ (ho other hne)⟩

/-- Witness of C3: binding `answer` (address 17) on the object that has just loaded `"libm.so"`. -/
theorem bind_function_resolved_witness :
    (Plugin.bind_function os1 (Plugin.ctor_load os1 "libm.so") "answer").is_bound "answer" = true ∧
    Table.find (Plugin.bind_function os1 (Plugin.ctor_load os1 "libm.so") "answer").functions
      "answer" = some 17 :=
  ⟨(bind_function_resolved os1 (Plugin.ctor_load os1 "libm.so") "answer" 17
      (by decide) (by decide) (by decide)).1,
   (bind_function_resolved os1 (Plugin.ctor_load os1 "libm.so") "answer" 17
      (by decide) (by decide) (by decide)).2.1⟩

/-- C4, evaluation at the failing input: on the object that has just loaded `"libm.so"`
(handle 5, empty table) the lookup of `nope` returns null and the name is not in the table,
yet after `bind_function("nope")` the table maps `nope` to the null pointer and
`is_bound("nope")` is true. -/
theorem bind_function_unresolved_is_bound :
    (Plugin.ctor_load os1 "libm.so").lib = 5 ∧
    os1.dlsym 5 "nope" = 0 ∧
    Table.find (Plugin.ctor_load os1 "libm.so").functions "nope" = none ∧
    Table.find (Plugin.bind_function os1 (Plugin.ctor_load os1 "libm.so") "nope").functions
      "nope" = some 0 ∧
    (Plugin.bind_function os1 (Plugin.ctor_load os1 "libm.so") "nope").is_bound "nope" = true := by
  decide

/-- C5: on an instance with a null handle, `bind_function(name)` changes nothing: the object
after the call is the object before it, so the log of outside calls has no new entry (no
symbol lookup is made), the handle is still null, the table is the same and `is_bound`
answers the same for every name. -/
theorem bind_function_unloaded_noop (os : OS) (p : Plugin) (name : String) (h0 : p.lib = 0) :
    Plugin.bind_function os p name = p ∧
    (Plugin.bind_function os p name).trace = p.trace ∧
    (Plugin.bind_function os p name).lib = 0 ∧
    (Plugin.bind_function os p name).functions = p.functions ∧
    (∀ other, (Plugin.bind_function os p name).is_bound other = p.is_bound other) := by
  have hq : Plugin.bind_function os p name = p := by
    simp [Plugin.bind_function, h0]
  rw [hq]
  exact ⟨rfl, rfl, h0, rfl, fun _ => rfl⟩

/-- Witness of C5: binding `answer` on a default-constructed object. -/
theorem bind_function_unloaded_noop_witness :
    Plugin.bind_function os1 Plugin.ctor "answer" = Plugin.ctor :=
  (bind_function_unloaded_noop os1 Plugin.ctor "answer" rfl).1

/-! ## Typed invoker -/

namespace Plugin

theorem execute_of_find_some {T A : Type} (call : Nat → A → T) (T0 : T) (p : Plugin)
    (name : String) (a : A) (f : Nat) (hf : Table.find p.functions name = some f)
    (hne : f ≠ 0) :
    execute call T0 p name a = (call f a, { p with trace := p.trace ++ [OsCall.call f] }) := by
  have hs : Table.subscript p.functions name = p.functions :=
    Table.subscript_of_find_some _ _ _ hf
  simp [execute, hs, Table.load, hf, hne]

theorem execute_of_find_none {T A : Type} (call : Nat → A → T) (T0 : T) (p : Plugin)
    (name : String) (a : A) (hf : Table.find p.functions name = none) :
    execute call T0 p name a = (T0, { p with functions := p.functions ++ [(name, 0)] }) := by
  have hs : Table.subscript p.functions name = p.functions ++ [(name, 0)] :=
    Table.subscript_of_find_none _ _ hf
  have hl : Table.find (p.functions ++ [(name, 0)]) name = some 0 := by
    rw [Table.find_append_single, hf]; simp
  simp [execute, hs, Table.load, hl]

theorem execute_of_find_null {T A : Type} (call : Nat → A → T) (T0 : T) (p : Plugin)
    (name : String) (a : A) (hf : Table.find p.functions name = some 0) :
    execute call T0 p name a = (T0, p) := by
  have hs : Table.subscript p.functions name = p.functions :=
    Table.subscript_of_find_some _ _ _ hf
  simp [execute, hs, Table.load, hf]

theorem iterate_execute_of_find_some {T A : Type} (call : Nat → A → T) (T0 : T)
    (name : String) (a : A) (f : Nat) (hne : f ≠ 0) (n : Nat) (p : Plugin)
    (hf : Table.find p.functions name = some f) :
    ((fun s => (execute call T0 s name a).2)^[n] p).lib = p.lib ∧
    ((fun s => (execute call T0 s name a).2)^[n] p).functions = p.functions := by
  induction n generalizing p with
  | zero => exact ⟨rfl, rfl⟩
  | succ n ih =>
    rw [Function.iterate_succ_apply]
    have hstep : (execute call T0 p name a).2 =
        { p with trace := p.trace ++ [OsCall.call f] } := by
      rw [execute_of_find_some call T0 p name a f hf hne]
    rw [hstep]
    exact ih _ hf

end Plugin

/-- C6: when the table maps the name to a non-null address `f`, `execute<T, Args...>(name,
args...)` returns the value of the call through `f` on `args` under the asserted signature,
makes exactly that one call, and leaves the handle and the table as they were; hence after any
number `n` of such calls the next one returns that same value again. -/
theorem execute_bound (T A : Type) (call : Nat → A → T) (T0 : T) (p : Plugin)
    (name : String) (args : A) (f : Nat)
    (hf : Table.find p.functions name = some f) (hne : f ≠ 0) :
    (Plugin.execute call T0 p name args).1 = call f args ∧
    (Plugin.execute call T0 p name args).2.lib = p.lib ∧
    (Plugin.execute call T0 p name args).2.functions = p.functions ∧
    (Plugin.execute call T0 p name args).2.trace = p.trace ++ [OsCall.call f] ∧
    (∀ n : Nat,
      (Plugin.execute call T0
        ((fun s => (Plugin.execute call T0 s name args).2)^[n] p) name args).1 =
        call f args) := by
  rw [Plugin.execute_of_find_some call T0 p name args f hf hne]
  refine ⟨rfl, rfl, rfl, rfl, ?_⟩
  intro n
  have hn := Plugin.iterate_execute_of_find_some call T0 name args f hne n p hf
  rw [Plugin.execute_of_find_some call T0 _ name args f (by rw [hn.2]; exact hf) hne]

/-- Witness of C6: `answer` is bound to address 17 in `p1`, whose code returns 42; the first
call and the call after three earlier ones both return 42. -/
theorem execute_bound_witness :
    (Plugin.execute call1 0 p1 "answer" ()).1 = 42 ∧
    (Plugin.execute call1 0
      ((fun s => (Plugin.execute call1 0 s "answer" ()).2)^[3] p1) "answer" ()).1 = 42 :=
  ⟨(execute_bound Int Unit call1 0 p1 "answer" () 17 (by decide) (by decide)).1,
   (execute_bound Int Unit call1 0 p1 "answer" () 17 (by decide) (by decide)).2.2.2.2 3⟩

/-- C7, counterexample: in `p1` the name `missing` is not in the table and `zero` is bound to
the non-null address 23, whose code returns 0. `execute<int>("missing")` returns `int()`,
that is 0, which is also what the successful `execute<int>("zero")` returns: the caller
cannot tell the two apart, and the default value was substituted. -/
theorem unbound_result_indistinguishable :
    Table.find p1.functions "missing" = none ∧
    Table.find p1.functions "zero" = some 23 ∧
    (Plugin.execute call1 0 p1 "zero" ()).1 = call1 23 () ∧
    (Plugin.execute call1 0 p1 "missing" ()).1 = 0 ∧
    (Plugin.execute call1 0 p1 "missing" ()).1 = (Plugin.execute call1 0 p1 "zero" ()).1 := by
  decide

/-- C7 as amended: for a name that no bind resolved, that is a name that is absent from the
table or present in it with the null pointer, `execute(name, args...)` makes no call through a
function pointer and no other outside call, leaves the handle alone, and returns the
value-initialised `T()`; that is also the result of a successful invocation of any bound
function that returns `T()`, so the result alone does not tell the caller that the name was
unbound. -/
theorem execute_never_bound_default (T A : Type) (call : Nat → A → T) (T0 : T) (p : Plugin)
    (name : String) (args : A)
    (hf : Table.find p.functions name = none ∨ Table.find p.functions name = some 0) :
    (Plugin.execute call T0 p name args).1 = T0 ∧
    (Plugin.execute call T0 p name args).2.trace = p.trace ∧
    libcalls (Plugin.execute call T0 p name args).2.trace = libcalls p.trace ∧
    (Plugin.execute call T0 p name args).2.lib = p.lib ∧
    (∀ (q : Plugin) (other : String) (b : A) (f : Nat),
      Table.find q.functions other = some f → f ≠ 0 → call f b = T0 →
      (Plugin.execute call T0 q other b).1 = (Plugin.execute call T0 p name args).1) := by
  have key : (Plugin.execute call T0 p name args).1 = T0 ∧
      (Plugin.execute call T0 p name args).2.trace = p.trace := by
    rcases hf with hf | hf
    · rw [Plugin.execute_of_find_none call T0 p name args hf]
      exact ⟨rfl, rfl⟩
    · rw [Plugin.execute_of_find_null call T0 p name args hf]
      exact ⟨rfl, rfl⟩
  refine ⟨key.1, key.2, by rw [key.2], Plugin.execute_lib call T0 p name args, ?_⟩
  intro q other b f hq hne hc
  rw [Plugin.execute_of_find_some call T0 q other b f hq hne, key.1]
  exact hc

/-- Witness of C7 as amended: `missing`, absent from `p1`, and `nope`, present with the null
pointer in `p2` after its bind did not resolve, each compared with the bound `zero`. -/
theorem execute_never_bound_default_witness :
    ((Plugin.execute call1 0 p1 "missing" ()).1 = 0 ∧
      (Plugin.execute call1 0 p1 "missing" ()).2.trace = p1.trace ∧
      (Plugin.execute call1 0 p1 "zero" ()).1 = (Plugin.execute call1 0 p1 "missing" ()).1) ∧
    (Table.find p2.functions "nope" = some 0 ∧
      (Plugin.execute call1 0 p2 "nope" ()).1 = 0 ∧
      (Plugin.execute call1 0 p2 "nope" ()).2.trace = p2.trace ∧
      (Plugin.execute call1 0 p2 "zero" ()).1 = (Plugin.execute call1 0 p2 "nope" ()).1) :=
  ⟨⟨(execute_never_bound_default Int Unit call1 0 p1 "missing" () (Or.inl (by decide))).1,
    (execute_never_bound_default Int Unit call1 0 p1 "missing" () (Or.inl (by decide))).2.1,
    (execute_never_bound_default Int Unit call1 0 p1 "missing" () (Or.inl (by decide))).2.2.2.2
      p1 "zero" () 23 (by decide) (by decide) (by decide)⟩,
   ⟨by decide,
    (execute_never_bound_default Int Unit call1 0 p2 "nope" () (Or.inr (by decide))).1,
    (execute_never_bound_default Int Unit call1 0 p2 "nope" () (Or.inr (by decide))).2.1,
    (execute_never_bound_default Int Unit call1 0 p2 "nope" () (Or.inr (by decide))).2.2.2.2
      p2 "zero" () 23 (by decide) (by decide) (by decide)⟩⟩

/-- C10: for a name that is not in the table, whatever the handle, `execute(name, args...)`
inserts the name with a null address, so `is_bound(name)` is true afterwards; the handle is
the same and every other key maps to what it mapped to before. -/
theorem execute_inserts_null (T A : Type) (call : Nat → A → T) (T0 : T) (p : Plugin)
    (name : String) (args : A) (hf : Table.find p.functions name = none) :
    p.is_bound name = false ∧
    Table.find (Plugin.execute call T0 p name args).2.functions name = some 0 ∧
    (Plugin.execute call T0 p name args).2.is_bound name = true ∧
    (Plugin.execute call T0 p name args).2.lib = p.lib ∧
    (∀ other, other ≠ name →
      Table.find (Plugin.execute call T0 p name args).2.functions other =
        Table.find p.functions other) := by
  have hfind : ∀ other, Table.find (p.functions ++ [(name, 0)]) other =
      if name = other then some 0 else Table.find p.functions other := by
    intro other
    rw [Table.find_append_single]
    by_cases h : name = other
    · subst h; rw [hf]
    · cases Table.find p.functions other <;> simp [h]
  have hb : p.is_bound name = false := by
    rw [← Bool.not_eq_true, Plugin.is_bound_iff_find, hf]
    simp
  rw [Plugin.execute_of_find_none call T0 p name args hf]
  refine ⟨hb, ?_, ?_, rfl, ?_⟩
  · simpa using hfind name
  · rw [Plugin.is_bound_iff_find]
    have := hfind name
    simp only [if_true] at this
    simp [this]
  · intro other hne
    have := hfind other
    simpa [Ne.symm hne] using this

/-- Witness of C10: `missing` on the loaded `p1`. -/
theorem execute_inserts_null_witness :
    p1.is_bound "missing" = false ∧
    (Plugin.execute call1 0 p1 "missing" ()).2.is_bound "missing" = true :=
  ⟨(execute_inserts_null Int Unit call1 0 p1 "missing" () (by decide)).1,
   (execute_inserts_null Int Unit call1 0 p1 "missing" () (by decide)).2.2.1⟩

/-! ## Destruction -/

theorem releases_append (l m : List OsCall) : releases (l ++ m) = releases l + releases m := by
  induction l with
  | nil => simp [releases]
  | cons e l ih =>
    cases e <;> simp [releases, ih]
    omega

theorem releases_apply {T A : Type} (os : OS) (call : Nat → A → T) (T0 : T) (p : Plugin)
    (op : Op A) : releases (Op.apply os call T0 p op).trace = releases p.trace := by
  cases op with
  | load filename =>
    by_cases h : p.lib = 0
    · simp [Op.apply, Plugin.load_library, h, releases_append, releases]
    · simp [Op.apply, Plugin.load_library, h]
  | bind funcname =>
    by_cases h : p.lib = 0
    · simp [Op.apply, Plugin.bind_function, h]
    · simp [Op.apply, Plugin.bind_function, h, releases_append, releases]
  | exec funcname a =>
    simp only [Op.apply, Plugin.execute]
    split
    · rfl
    · simp [releases_append, releases]

theorem releases_run {T A : Type} (os : OS) (call : Nat → A → T) (T0 : T) (ops : List (Op A))
    (p : Plugin) : releases (run os call T0 p ops).trace = releases p.trace := by
  induction ops generalizing p with
  | nil => rfl
  | cons op ops ih =>
    simp only [run, List.foldl_cons] at ih ⊢
    rw [ih, releases_apply]

theorem lib_run_of_no_load {T A : Type} (os : OS) (call : Nat → A → T) (T0 : T)
    (ops : List (Op A)) (p : Plugin) (h : ∀ op ∈ ops, ∀ f, op ≠ Op.load f) :
    (run os call T0 p ops).lib = p.lib := by
  induction ops generalizing p with
  | nil => rfl
  | cons op ops ih =>
    simp only [run, List.foldl_cons] at ih ⊢
    rw [ih _ (fun o ho => h o (List.mem_cons_of_mem _ ho))]
    cases op with
    | load filename => exact absurd rfl (h _ (List.mem_cons_self _ _) filename)
    | bind funcname => exact Plugin.bind_function_lib os p funcname
    | exec funcname a => exact Plugin.execute_lib call T0 p funcname a

/-- C8: whatever member calls were made on the object before (loads, binds and executes,
resolved or not), the destructor issues one release call, on the stored handle, when the
handle is non-null, and no call at all when the handle is null; no member call issues a
release, so over the whole run the number of releases grows by exactly one, respectively by
zero. Binds and executes never change the handle. -/
theorem destructor_releases_once (T A : Type) (os : OS) (call : Nat → A → T) (T0 : T)
    (p : Plugin) (ops : List (Op A)) :
    ((run os call T0 p ops).lib ≠ 0 →
      (Plugin.destructor (run os call T0 p ops)).trace =
        (run os call T0 p ops).trace ++ [OsCall.dlclose (run os call T0 p ops).lib] ∧
      releases (Plugin.destructor (run os call T0 p ops)).trace = releases p.trace + 1) ∧
    ((run os call T0 p ops).lib = 0 →
      (Plugin.destructor (run os call T0 p ops)).trace = (run os call T0 p ops).trace ∧
      releases (Plugin.destructor (run os call T0 p ops)).trace = releases p.trace) ∧
    ((∀ op ∈ ops, ∀ f, op ≠ Op.load f) → (run os call T0 p ops).lib = p.lib) := by
  refine ⟨?_, ?_, lib_run_of_no_load os call T0 ops p⟩
  · intro h
    have hd : Plugin.destructor (run os call T0 p ops) =
        { run os call T0 p ops with
          trace := (run os call T0 p ops).trace ++
            [OsCall.dlclose (run os call T0 p ops).lib] } := by
      simp [Plugin.destructor, h]
    rw [hd]
    refine ⟨rfl, ?_⟩
    simp [releases_append, releases, releases_run]
  · intro h
    have hd : Plugin.destructor (run os call T0 p ops) = run os call T0 p ops := by
      simp [Plugin.destructor, h]
    rw [hd]
    exact ⟨rfl, releases_run os call T0 ops p⟩

/-- Witness of C8: a loaded object after a failed bind, a failed execute and a successful
execute releases handle 5 once; a default-constructed object after a bind and an execute
releases nothing. -/
theorem destructor_releases_once_witness :
    releases (Plugin.destructor (run os1 call1 0 p1
      [Op.bind "nope", Op.exec "missing" (), Op.exec "answer" ()])).trace = 1 ∧
    releases (Plugin.destructor (run os1 call1 0 Plugin.ctor
      [Op.bind "answer", Op.exec "answer" ()])).trace = 0 ∧
    (run os1 call1 0 p1 [Op.bind "nope", Op.exec "missing" (), Op.exec "answer" ()]).lib = 5 :=
  ⟨((destructor_releases_once Int Unit os1 call1 0 p1
      [Op.bind "nope", Op.exec "missing" (), Op.exec "answer" ()]).1 (by decide)).2,
   ((destructor_releases_once Int Unit os1 call1 0 Plugin.ctor
      [Op.bind "answer", Op.exec "answer" ()]).2.1 (by decide)).2,
   (destructor_releases_once Int Unit os1 call1 0 p1
      [Op.bind "nope", Op.exec "missing" (), Op.exec "answer" ()]).2.2
      (by intro op hop f; simp at hop; rcases hop with h | h | h <;> simp [h])⟩

/-! ## Batch constructor -/

theorem foldl_bind_function (os : OS) (names : List String) (p : Plugin) (hl : p.lib ≠ 0) :
    (names.foldl (Plugin.bind_function os) p).lib = p.lib ∧
    ∀ name, Table.find (names.foldl (Plugin.bind_function os) p).functions name =
      if name ∈ names then some (os.dlsym p.lib name) else Table.find p.functions name := by
  induction names generalizing p with
  | nil => exact ⟨rfl, fun _ => by simp⟩
  | cons x xs ih =>
    have hx : (Plugin.bind_function os p x).lib = p.lib := Plugin.bind_function_lib os p x
    have hl2 : (Plugin.bind_function os p x).lib ≠ 0 := by rw [hx]; exact hl
    obtain ⟨ih1, ih2⟩ := ih (Plugin.bind_function os p x) hl2
    rw [List.foldl_cons]
    refine ⟨by rw [ih1, hx], ?_⟩
    intro name
    rw [ih2 name, hx]
    by_cases hm : name ∈ xs
    · simp [hm]
    · by_cases he : name = x
      · subst he
        rw [Plugin.bind_function_loaded os p name hl]
        simp [hm, Table.find_assign_self]
      · rw [Plugin.bind_function_loaded os p x hl]
        simp [hm, he, Table.find_assign_other _ _ _ _ he]

/-- C9: for the constructor `Plugin(filename, funcnames)`: when the loader opens the path,
the object is the one obtained by applying `bind_function` to each name of the list in order
on the freshly loaded object, and every name of the list that the symbol lookup resolves to a
non-null address is bound and mapped to that address, whatever the other names of the list
resolve to; when the loader does not open the path, no lookup is made, the table is empty and
no name is bound. -/
theorem ctor_bind_each (os : OS) (filename : String) (funcnames : List String) :
    (os.dlopen filename ≠ 0 →
      Plugin.ctor_bind os filename funcnames =
        funcnames.foldl (Plugin.bind_function os) (Plugin.ctor_load os filename) ∧
      (Plugin.ctor_bind os filename funcnames).lib = os.dlopen filename ∧
      (∀ name ∈ funcnames, ∀ a, os.dlsym (os.dlopen filename) name = a → a ≠ 0 →
        Table.find (Plugin.ctor_bind os filename funcnames).functions name = some a ∧
        (Plugin.ctor_bind os filename funcnames).is_bound name = true)) ∧
    (os.dlopen filename = 0 →
      (Plugin.ctor_bind os filename funcnames).is_loaded = false ∧
      (Plugin.ctor_bind os filename funcnames).functions = [] ∧
      (Plugin.ctor_bind os filename funcnames).trace = [OsCall.dlopen filename] ∧
      (∀ name, (Plugin.ctor_bind os filename funcnames).is_bound name = false)) := by
  have hload : Plugin.load_library os Plugin.ctor filename =
      { lib := os.dlopen filename, functions := [], trace := [OsCall.dlopen filename] } := by
    simp [Plugin.load_library, Plugin.ctor]
  constructor
  · intro h
    have hc : Plugin.ctor_bind os filename funcnames =
        funcnames.foldl (Plugin.bind_function os) (Plugin.ctor_load os filename) := by
      simp [Plugin.ctor_bind, Plugin.ctor_load, hload, h]
    have hl : (Plugin.ctor_load os filename).lib = os.dlopen filename := by
      simp [Plugin.ctor_load, hload]
    obtain ⟨h1, h2⟩ := foldl_bind_function os funcnames (Plugin.ctor_load os filename)
      (by rw [hl]; exact h)
    rw [hc]
    refine ⟨rfl, by rw [h1, hl], ?_⟩
    intro name hm a ha _
    have hf : Table.find
        (funcnames.foldl (Plugin.bind_function os) (Plugin.ctor_load os filename)).functions
        name = some a := by
      rw [h2 name, hl, ha]; simp [hm]
    refine ⟨hf, ?_⟩
    rw [Plugin.is_bound_iff_find, hf]; rfl
  · intro h
    have hc : Plugin.ctor_bind os filename funcnames =
        { lib := 0, functions := [], trace := [OsCall.dlopen filename] } := by
      simp [Plugin.ctor_bind, hload, h]
    rw [hc]
    exact ⟨by simp [Plugin.is_loaded], rfl, rfl, fun _ => by simp [Plugin.is_bound, Table.count]⟩

/-- Witness of C9: `answer` and `zero` are bound to 17 and 23 although `nope` and `nope2`,
before and between them, do not resolve; with a path that does not open, nothing is bound. -/
theorem ctor_bind_each_witness :
    Table.find (Plugin.ctor_bind os1 "libm.so" ["nope", "answer", "nope2", "zero"]).functions
      "answer" = some 17 ∧
    Table.find (Plugin.ctor_bind os1 "libm.so" ["nope", "answer", "nope2", "zero"]).functions
      "zero" = some 23 ∧
    (Plugin.ctor_bind os1 "nothere.so" ["answer", "zero"]).functions = [] :=
  ⟨(((ctor_bind_each os1 "libm.so" ["nope", "answer", "nope2", "zero"]).1 (by decide)).2.2
      "answer" (by decide) 17 (by decide) (by decide)).1,
   (((ctor_bind_each os1 "libm.so" ["nope", "answer", "nope2", "zero"]).1 (by decide)).2.2
      "zero" (by decide) 23 (by decide) (by decide)).1,
   ((ctor_bind_each os1 "nothere.so" ["answer", "zero"]).2 (by decide)).2.1⟩

end hirzel
